import Mathlib

deriving instance DecidableEq for Except

/-!
Shallow embedding of `diffie_hellman.py` (blester125/Diffie-Hellman).

Python integers are modelled as `Int`.  Python `%` with a positive modulus
agrees with Lean's `Int.emod` (the `%` of this toolchain), and Python `//`
with a positive divisor agrees with Lean's `Int.ediv` (the `/` of this
toolchain); every `%` and `//` in the source is applied with a positive
right operand (the primality branches only run for `n > 3`, the residue
scan only runs for `n >= 2`, and the cofactor division divides by a
divisor `>= 2`), so `%` and `/` below are faithful to the Python source.

The Python `while` loop of `is_prime` is modelled with explicit fuel: the
loop variable starts at 5 and grows by 6 while `i * i <= n`, so it runs at
most `n` iterations; `trialLoop` is given fuel `n`, which is never
exhausted, making it extensionally equal to the unbounded loop.
-/

namespace DiffieHellmanSpec

/-- Embeds `PrimeError`: witness divisor for a composite modulus. -/
structure PrimeError where
  divisor : Int
deriving DecidableEq, Repr

/-- Embeds the `while i ** 2 <= n` trial-division loop of `is_prime`,
checking `i` and `i + 2` each round and stepping `i` by 6.  `fuel = n`
at the top-level call strictly dominates the iteration count. -/
def trialLoop (n : Nat) : Nat → Nat → Option Nat
  | 0, _ => none
  | fuel + 1, i =>
    if i * i ≤ n then
      if n % i = 0 then some i
      else if n % (i + 2) = 0 then some (i + 2)
      else trialLoop n fuel (i + 6)
    else none

/-- Embeds `is_prime`: returns the `(bool, Optional[PrimeError])` pair of
the source.  For `n <= 3` the result is `(n > 1, None)`; even `n` and
multiples of 3 yield witnesses 2 and 3; otherwise the 6k±1 wheel is
trial-divided up to `floor (sqrt n)`. -/
def is_prime (n : Int) : Bool × Option PrimeError :=
  if n ≤ 3 then (decide (1 < n), none)
  else if n % 2 = 0 then (false, some ⟨2⟩)
  else if n % 3 = 0 then (false, some ⟨3⟩)
  else
    match trialLoop n.toNat n.toNat 5 with
    | some d => (false, some ⟨(d : Int)⟩)
    | none => (true, none)

/-- Embeds `PrimitiveRootError`: the colliding exponents and repeated
residue returned when `g` is not a primitive root. -/
structure PrimitiveRootError where
  current : Int
  remainder : Int
  previous : Int
deriving DecidableEq, Repr

/-- Embeds the `for i in range(n - 1)` loop of `is_primitive_root_modulo_n`.
The association list plays the role of the `remainders` dict (keys are
inserted only when absent, so they stay distinct and lookup order is
immaterial); `fuel` counts the remaining iterations and `i` is the loop
index. -/
def rootLoop (g n : Int) : Nat → Nat → List (Int × Nat) → Bool × Option PrimitiveRootError
  | 0, _, _ => (true, none)
  | fuel + 1, i, remainders =>
    let remainder := g ^ i % n
    match remainders.lookup remainder with
    | some prev => (false, some ⟨(i : Int), remainder, (prev : Int)⟩)
    | none => rootLoop g n fuel (i + 1) ((remainder, i) :: remainders)

/-- Embeds `is_primitive_root_modulo_n`: scans `g ^ i % n` for
`i` in `range(n - 1)`; `(n - 1).toNat` is exactly the Python range
length (0 when `n <= 1`). -/
def is_primitive_root_modulo_n (g n : Int) : Bool × Option PrimitiveRootError :=
  rootLoop g n (n - 1).toNat 0 []

/-- Embeds the `DiffieHellmanConstants` dataclass fields; dataclass
equality compares both fields, matching structure equality. -/
structure DiffieHellmanConstants where
  g : Int
  n : Int
deriving DecidableEq, Repr

/-- Embeds `RECOMMENDED_N_BIT_LENGTH`. -/
def RECOMMENDED_N_BIT_LENGTH : Nat := 2048

/-- Fueled helper for `bit_length`; fuel `m + 1` suffices for argument `m`. -/
def bitLengthAux : Nat → Nat → Nat
  | 0, _ => 0
  | fuel + 1, m => if m = 0 then 0 else bitLengthAux fuel (m / 2) + 1

/-- Embeds Python's `int.bit_length()`: number of bits of `|n|`, 0 for 0. -/
def bit_length (n : Int) : Nat := bitLengthAux (n.natAbs + 1) n.natAbs

/-- Typed failures raised by the constructors and the exchange, one per
`ValueError` site of the source plus the `AttributeError` the source
would raise when it reads `error.divisor` off a `None` witness
(reachable only for negative moduli). -/
inductive DHError where
  | modulusZero
  | modulusOne
  | modulusComposite (divisor : Int) (cofactor : Int)
  | noneWitness
  | notPrimitiveRoot (current : Int) (remainder : Int) (previous : Int)
  | secretTooSmall (secret : Int)
  | secretTooLarge (secret : Int) (n : Int)
  | parameterMismatch (a : DiffieHellmanConstants) (b : DiffieHellmanConstants)
  | sharedMismatch
deriving DecidableEq, Repr

/-- Embeds `DiffieHellmanConstants.__post_init__` as a fail-fast factory.
The returned `Bool` records whether the non-fatal weak-modulus advisory
was printed (`n.bit_length() < RECOMMENDED_N_BIT_LENGTH`); it is carried
as data because the print must not affect control flow. -/
def mkConstants (g n : Int) : Except DHError (DiffieHellmanConstants × Bool) :=
  if (is_prime n).1 then
    if (is_primitive_root_modulo_n g n).1 then
      Except.ok (⟨g, n⟩, decide (bit_length n < RECOMMENDED_N_BIT_LENGTH))
    else
      match (is_primitive_root_modulo_n g n).2 with
      | some e => Except.error (DHError.notPrimitiveRoot e.current e.remainder e.previous)
      | none => Except.error DHError.noneWitness
  else
    if n = 0 then Except.error DHError.modulusZero
    else if n = 1 then Except.error DHError.modulusOne
    else
      match (is_prime n).2 with
      | some e => Except.error (DHError.modulusComposite e.divisor (n / e.divisor))
      | none => Except.error DHError.noneWitness

/-- Embeds the `DiffieHellman` dataclass (a participant): shared
constants plus the private secret. -/
structure DiffieHellman where
  constants : DiffieHellmanConstants
  secret : Int
deriving DecidableEq, Repr

/-- Embeds `DiffieHellman.__post_init__`: validates `1 <= secret <= n`. -/
def mkDiffieHellman (constants : DiffieHellmanConstants) (secret : Int) :
    Except DHError DiffieHellman :=
  if secret < 1 then Except.error (DHError.secretTooSmall secret)
  else if secret > constants.n then Except.error (DHError.secretTooLarge secret constants.n)
  else Except.ok ⟨constants, secret⟩

/-- Embeds `calculate_public`: `g ** secret % n`.  The validated secret is
at least 1, so the `Int.toNat` exponent coincides with the Python
exponent. -/
def calculate_public (dh : DiffieHellman) : Int :=
  dh.constants.g ^ dh.secret.toNat % dh.constants.n

/-- Embeds `calculate_shared`: `public ** secret % n`. -/
def calculate_shared (dh : DiffieHellman) (public : Int) : Int :=
  public ^ dh.secret.toNat % dh.constants.n

/-- Embeds the `diffie_hellman` exchange: parameter-mismatch check, both
public values, both shared secrets, the `assert`, and the returned common
value.  The `assert` is modelled as a typed failure. -/
def diffie_hellman (alice bob : DiffieHellman) : Except DHError Int :=
  if alice.constants ≠ bob.constants then
    Except.error (DHError.parameterMismatch alice.constants bob.constants)
  else
    let alice_public := calculate_public alice
    let bob_public := calculate_public bob
    let alice_shared := calculate_shared alice bob_public
    let bob_shared := calculate_shared bob alice_public
    if alice_shared = bob_shared then Except.ok alice_shared
    else Except.error DHError.sharedMismatch

/-- Reference list of the primes up to 100 (the test file's reference
classification set). -/
def primesUpTo100 : List Nat :=
  [2, 3, 5, 7, 11, 13, 17, 19, 23, 29, 31, 37, 41, 43, 47, 53, 59, 61, 67,
   71, 73, 79, 83, 89, 97]

/-- Reference description of the wheel: the first divisor of `n` of the
form 6k±1 that is at least 5 and at most `floor (sqrt n)`, scanned in
increasing order. -/
def firstWheelDivisor (n : Nat) : Option Nat :=
  ((List.range (n + 1)).filter
    (fun m => decide (5 ≤ m) && (m % 6 == 5 || m % 6 == 1)
      && decide (m * m ≤ n) && (n % m == 0))).head?

/-- Reference table of the primitive roots of the small primes used by
the test file. -/
def primitiveRootsTable : List (Int × List Int) :=
  [(5, [2, 3]),
   (7, [3, 5]),
   (11, [2, 6, 7, 8]),
   (13, [2, 6, 7, 11]),
   (17, [3, 5, 6, 7, 10, 11, 12, 14]),
   (19, [2, 3, 10, 13, 14, 15]),
   (23, [5, 7, 10, 11, 14, 15, 17, 19, 20, 21]),
   (29, [2, 3, 8, 10, 11, 14, 15, 18, 19, 21, 26, 27]),
   (31, [3, 11, 12, 13, 17, 21, 22, 24])]

/-- Checks `is_primitive_root_modulo_n` against the reference table, for
every base `g` in `range(n)` of every listed prime `n`. -/
def rootTableMatches : Bool :=
  primitiveRootsTable.all (fun p =>
    (List.range p.1.toNat).all (fun g =>
      (is_primitive_root_modulo_n (g : Int) p.1).1 == p.2.contains (g : Int)))

lemma is_prime_true_gt_one {n : Int} (h : (is_prime n).1 = true) : 1 < n := by
  by_cases h3 : n ≤ 3
  · have hd : decide (1 < n) = true := by simpa [is_prime, h3] using h
    exact of_decide_eq_true hd
  · omega

lemma is_prime_snd_some {n : Int} {e : PrimeError}
    (h : (is_prime n).2 = some e) : (is_prime n).1 = false ∧ 3 < n := by
  by_cases h3 : n ≤ 3
  · simp [is_prime, h3] at h
  · refine ⟨?_, by omega⟩
    by_cases h2 : n % 2 = 0
    · simp [is_prime, h3, h2]
    · by_cases hm3 : n % 3 = 0
      · simp [is_prime, h3, h2, hm3]
      · rcases ht : trialLoop n.toNat n.toNat 5 with _ | d
        · simp [is_prime, h3, h2, hm3, ht] at h
        · simp [is_prime, h3, h2, hm3, ht]

lemma mkDiffieHellman_ok {c : DiffieHellmanConstants} {s : Int} {p : DiffieHellman}
    (h : mkDiffieHellman c s = Except.ok p) :
    p = ⟨c, s⟩ ∧ 1 ≤ s ∧ s ≤ c.n := by
  by_cases h1 : s < 1
  · simp [mkDiffieHellman, h1] at h
  · by_cases h2 : s > c.n
    · simp [mkDiffieHellman, h1, h2] at h
    · have := by simpa [mkDiffieHellman, h1, h2] using h
      exact ⟨this.symm, by omega, by omega⟩

lemma mkDiffieHellman_ok_iff (c : DiffieHellmanConstants) (s : Int) :
    (∃ p, mkDiffieHellman c s = Except.ok p) ↔ (1 ≤ s ∧ s ≤ c.n) := by
  constructor
  · intro ⟨p, hp⟩
    exact (mkDiffieHellman_ok hp).2
  · intro ⟨h1, h2⟩
    refine ⟨⟨c, s⟩, ?_⟩
    have hn1 : ¬s < 1 := by omega
    have hn2 : ¬s > c.n := by omega
    simp [mkDiffieHellman, hn1, hn2]

lemma shared_comm (g n : Int) (x y : Nat) :
    (g ^ x % n) ^ y % n = (g ^ y % n) ^ x % n := by
  have h1 : (g ^ x % n) ^ y % n = (g ^ x) ^ y % n :=
    (Int.ModEq.pow y (Int.emod_emod_of_dvd _ dvd_rfl))
  have h2 : (g ^ y % n) ^ x % n = (g ^ y) ^ x % n :=
    (Int.ModEq.pow x (Int.emod_emod_of_dvd _ dvd_rfl))
  rw [h1, h2, ← pow_mul, ← pow_mul, Nat.mul_comm]

lemma shared_comm_participants (c : DiffieHellmanConstants) (sa sb : Int) :
    calculate_shared ⟨c, sa⟩ (calculate_public ⟨c, sb⟩)
      = calculate_shared ⟨c, sb⟩ (calculate_public ⟨c, sa⟩) := by
  simpa [calculate_shared, calculate_public] using
    shared_comm c.g c.n sb.toNat sa.toNat

lemma exchange_ok (c : DiffieHellmanConstants) (sa sb : Int) :
    diffie_hellman ⟨c, sa⟩ ⟨c, sb⟩
      = Except.ok (calculate_shared ⟨c, sa⟩ (calculate_public ⟨c, sb⟩)) := by
  simp [diffie_hellman, shared_comm_participants c sa sb]

lemma exchange_mismatch {a b : DiffieHellman} (h : a.constants ≠ b.constants) :
    diffie_hellman a b = Except.error (DHError.parameterMismatch a.constants b.constants) := by
  simp [diffie_hellman, h]

/-- State of the `remainders` dict after the first `i` loop iterations of
a collision-free run: residue `g ^ j % n` maps to exponent `j` for every
`j < i`, newest first. -/
def rootAcc (g n : Int) (i : Nat) : List (Int × Nat) :=
  ((List.range i).map (fun j => (g ^ j % n, j))).reverse

lemma rootAcc_succ (g n : Int) (i : Nat) :
    rootAcc g n (i + 1) = (g ^ i % n, i) :: rootAcc g n i := by
  simp [rootAcc, List.range_succ]

lemma lookup_rootAcc_some (g n : Int) :
    ∀ (i : Nat) (r : Int) (p : Nat),
      List.lookup r (rootAcc g n i) = some p → p < i ∧ g ^ p % n = r := by
  intro i
  induction i with
  | zero => intro r p h; simp [rootAcc] at h
  | succ i ih =>
    intro r p h
    rw [rootAcc_succ] at h
    by_cases hc : g ^ i % n = r
    · have hb : (r == g ^ i % n) = true := by simp [hc]
      have hp : some i = some p := by simpa [List.lookup, hb] using h
      have hpi : p = i := by simpa using hp.symm
      exact ⟨by omega, hpi ▸ hc⟩
    · have hb : (r == g ^ i % n) = false := by
        simp only [beq_eq_false_iff_ne, ne_eq]
        exact fun hr => hc hr.symm
      have h2 : List.lookup r (rootAcc g n i) = some p := by
        simpa [List.lookup, hb] using h
      obtain ⟨h3, h4⟩ := ih r p h2
      exact ⟨by omega, h4⟩

lemma lookup_rootAcc_none (g n : Int) :
    ∀ (i : Nat) (r : Int), List.lookup r (rootAcc g n i) = none →
      ∀ j, j < i → g ^ j % n ≠ r := by
  intro i
  induction i with
  | zero => intro r _ j hj; omega
  | succ i ih =>
    intro r h j hj
    rw [rootAcc_succ] at h
    by_cases hc : g ^ i % n = r
    · have hb : (r == g ^ i % n) = true := by simp [hc]
      simp [List.lookup, hb] at h
    · have hb : (r == g ^ i % n) = false := by
        simp only [beq_eq_false_iff_ne, ne_eq]
        exact fun hr => hc hr.symm
      have h2 : List.lookup r (rootAcc g n i) = none := by
        simpa only [List.lookup, hb] using h
      rcases Nat.lt_succ_iff_lt_or_eq.mp hj with hj1 | rfl
      · exact ih r h2 j hj1
      · exact hc

/-- Loop invariant of `rootLoop`: started at index `i` with the dict of a
collision-free prefix, the boolean result says exactly that the residues
stay pairwise distinct through the remaining `fuel` iterations, and any
returned error packages a genuine first collision. -/
lemma rootLoop_spec (g n : Int) :
    ∀ (fuel i : Nat),
      (∀ j k : Nat, j < k → k < i → g ^ j % n ≠ g ^ k % n) →
      ((rootLoop g n fuel i (rootAcc g n i)).1 = true ↔
        ∀ j k : Nat, j < k → k < i + fuel → g ^ j % n ≠ g ^ k % n)
      ∧ (∀ e, (rootLoop g n fuel i (rootAcc g n i)).2 = some e →
          ∃ cur prev : Nat,
            e = ⟨(cur : Int), g ^ cur % n, (prev : Int)⟩
            ∧ prev < cur ∧ i ≤ cur ∧ cur < i + fuel
            ∧ g ^ prev % n = g ^ cur % n
            ∧ ∀ q : Nat, q < cur → q ≠ prev → g ^ q % n ≠ g ^ cur % n) := by
  intro fuel
  induction fuel with
  | zero =>
    intro i hdist
    constructor
    · simp only [rootLoop, true_iff]
      intro j k hjk hk
      exact hdist j k hjk (by omega)
    · intro e he
      simp [rootLoop] at he
  | succ fuel ih =>
    intro i hdist
    rcases hl : List.lookup (g ^ i % n) (rootAcc g n i) with _ | p
    · have hstep : rootLoop g n (fuel + 1) i (rootAcc g n i)
          = rootLoop g n fuel (i + 1) (rootAcc g n (i + 1)) := by
        rw [rootAcc_succ]
        simp [rootLoop, hl]
      have hnone := lookup_rootAcc_none g n i _ hl
      have hdist1 : ∀ j k : Nat, j < k → k < i + 1 → g ^ j % n ≠ g ^ k % n := by
        intro j k hjk hk
        rcases Nat.lt_succ_iff_lt_or_eq.mp hk with hk1 | rfl
        · exact hdist j k hjk hk1
        · exact hnone j hjk
      have hih := ih (i + 1) hdist1
      rw [hstep]
      constructor
      · rw [hih.1]
        constructor
        · intro h2 j k hjk hk; exact h2 j k hjk (by omega)
        · intro h2 j k hjk hk; exact h2 j k hjk (by omega)
      · intro e he
        obtain ⟨cur, prev, he1, h1, h2, h3, h4, h5⟩ := hih.2 e he
        exact ⟨cur, prev, he1, h1, by omega, by omega, h4, h5⟩
    · obtain ⟨hpi, hpr⟩ := lookup_rootAcc_some g n i _ p hl
      have hstep : rootLoop g n (fuel + 1) i (rootAcc g n i)
          = (false, some ⟨(i : Int), g ^ i % n, (p : Int)⟩) := by
        simp [rootLoop, hl]
      rw [hstep]
      constructor
      · constructor
        · intro h; simp at h
        · intro h2
          exact absurd hpr (h2 p i hpi (by omega))
      · intro e he
        have he2 : e = ⟨(i : Int), g ^ i % n, (p : Int)⟩ := by
          simpa using he.symm
        refine ⟨i, p, he2, hpi, Nat.le_refl i, by omega, hpr, ?_⟩
        intro q hq hqp hcontra
        rcases Nat.lt_or_ge q p with hlt | hge
        · exact hdist q p hlt hpi (hcontra.trans hpr.symm)
        · have hplt : p < q := by omega
          exact hdist p q hplt hq (hpr.trans hcontra.symm)

lemma rootLoop_fst_false_of_some (g n : Int) :
    ∀ (fuel i : Nat) (acc : List (Int × Nat)) (e : PrimitiveRootError),
      (rootLoop g n fuel i acc).2 = some e → (rootLoop g n fuel i acc).1 = false := by
  intro fuel
  induction fuel with
  | zero => intro i acc e he; simp [rootLoop] at he
  | succ fuel ih =>
    intro i acc e he
    rcases hl : List.lookup (g ^ i % n) acc with _ | p
    · have hstep : rootLoop g n (fuel + 1) i acc
          = rootLoop g n fuel (i + 1) ((g ^ i % n, i) :: acc) := by
        simp [rootLoop, hl]
      rw [hstep] at he ⊢
      exact ih (i + 1) _ e he
    · simp [rootLoop, hl]

lemma is_primitive_root_eq_rootLoop (g n : Int) :
    is_primitive_root_modulo_n g n = rootLoop g n (n - 1).toNat 0 (rootAcc g n 0) := rfl

lemma root_vacuous (g n : Int) :
    ∀ j k : Nat, j < k → k < 0 → g ^ j % n ≠ g ^ k % n := by
  intro j k _ hk
  omega

lemma mkConstants_ok_iff (g n : Int) :
    (∃ r, mkConstants g n = Except.ok r) ↔
      ((is_prime n).1 = true ∧ (is_primitive_root_modulo_n g n).1 = true) := by
  by_cases hp : (is_prime n).1
  · by_cases hr : (is_primitive_root_modulo_n g n).1
    · simp [mkConstants, hp, hr]
    · rcases he : (is_primitive_root_modulo_n g n).2 with _ | e <;>
        simp [mkConstants, hp, hr, he]
  · constructor
    · rintro ⟨r, hok⟩
      exfalso
      by_cases h0 : n = 0
      · subst h0
        simp [mkConstants, hp] at hok
      · by_cases h1 : n = 1
        · subst h1
          simp [mkConstants, hp, h0] at hok
        · rcases he : (is_prime n).2 with _ | e <;>
            simp [mkConstants, hp, h0, h1, he] at hok
    · rintro ⟨h1, -⟩
      exact absurd h1 (by simp [hp])

lemma mkConstants_ok_val {g n : Int} {r : DiffieHellmanConstants × Bool}
    (h : mkConstants g n = Except.ok r) :
    r = (⟨g, n⟩, decide (bit_length n < RECOMMENDED_N_BIT_LENGTH))
    ∧ (is_prime n).1 = true ∧ (is_primitive_root_modulo_n g n).1 = true := by
  by_cases hp : (is_prime n).1
  · by_cases hr : (is_primitive_root_modulo_n g n).1
    · have hv := by simpa [mkConstants, hp, hr] using h
      exact ⟨hv.symm, hp, hr⟩
    · rcases he : (is_primitive_root_modulo_n g n).2 with _ | e <;>
        simp [mkConstants, hp, hr, he] at h
  · exfalso
    by_cases h0 : n = 0
    · subst h0
      simp [mkConstants, hp] at h
    · by_cases h1 : n = 1
      · subst h1
        simp [mkConstants, hp, h0] at h
      · rcases he : (is_prime n).2 with _ | e <;>
          simp [mkConstants, hp, h0, h1, he] at h

lemma constants_ext_iff (c d : DiffieHellmanConstants) :
    c = d ↔ (c.g = d.g ∧ c.n = d.n) := by
  cases c; cases d; simp

/-- C1: participants built over the same successfully constructed
parameter set compute equal shared secrets, the exchange assertion never
fails, and the exchange returns the common shared value. -/
theorem exchange_shared_secrets_agree (g n sa sb : Int)
    (r : DiffieHellmanConstants × Bool) (_hc : mkConstants g n = Except.ok r)
    (a b : DiffieHellman)
    (ha : mkDiffieHellman r.1 sa = Except.ok a)
    (hb : mkDiffieHellman r.1 sb = Except.ok b) :
    calculate_shared a (calculate_public b) = calculate_shared b (calculate_public a)
    ∧ diffie_hellman a b = Except.ok (calculate_shared a (calculate_public b)) := by
  obtain ⟨rfl, -, -⟩ := mkDiffieHellman_ok ha
  obtain ⟨rfl, -, -⟩ := mkDiffieHellman_ok hb
  exact ⟨shared_comm_participants r.1 sa sb, exchange_ok r.1 sa sb⟩

/-- Witness for C1 at the end-to-end example `g = 5`, `n = 23`,
secrets 4 and 3. -/
theorem exchange_shared_secrets_agree_checked :
    calculate_shared ⟨⟨5, 23⟩, 4⟩ (calculate_public ⟨⟨5, 23⟩, 3⟩)
      = calculate_shared ⟨⟨5, 23⟩, 3⟩ (calculate_public ⟨⟨5, 23⟩, 4⟩)
    ∧ diffie_hellman ⟨⟨5, 23⟩, 4⟩ ⟨⟨5, 23⟩, 3⟩
      = Except.ok (calculate_shared ⟨⟨5, 23⟩, 4⟩ (calculate_public ⟨⟨5, 23⟩, 3⟩)) :=
  exchange_shared_secrets_agree 5 23 4 3 (⟨5, 23⟩, true) (by decide)
    ⟨⟨5, 23⟩, 4⟩ ⟨⟨5, 23⟩, 3⟩ (by decide) (by decide)

/-- C2: `calculate_public` is `g ^ secret % n`, `calculate_shared` is
`public ^ secret % n`, and for `(g, n) = (5, 23)`: secret 4 gives
public 4, secret 3 gives public 10, and both shared computations give
18. -/
theorem calculate_public_shared_spec :
    (∀ dh : DiffieHellman,
      calculate_public dh = dh.constants.g ^ dh.secret.toNat % dh.constants.n)
    ∧ (∀ (dh : DiffieHellman) (public : Int),
      calculate_shared dh public = public ^ dh.secret.toNat % dh.constants.n)
    ∧ calculate_public ⟨⟨5, 23⟩, 4⟩ = 4
    ∧ calculate_public ⟨⟨5, 23⟩, 3⟩ = 10
    ∧ calculate_shared ⟨⟨5, 23⟩, 4⟩ 10 = 18
    ∧ calculate_shared ⟨⟨5, 23⟩, 3⟩ 4 = 18 :=
  ⟨fun _ => rfl, fun _ _ => rfl, by decide, by decide, by decide, by decide⟩

/-- C3: the exchange fails iff the two participants hold unequal
parameter sets (equality being field-wise), fails precisely with the
parameter-mismatch error naming both sets, returns the common shared
secret when they agree, and returns 18 on the `(5, 23, 4, 3)` example. -/
theorem run_exchange_parameter_mismatch
    (ga na sa gb nb sb : Int) (ra rb : DiffieHellmanConstants × Bool)
    (_hca : mkConstants ga na = Except.ok ra) (_hcb : mkConstants gb nb = Except.ok rb)
    (a b : DiffieHellman)
    (ha : mkDiffieHellman ra.1 sa = Except.ok a)
    (hb : mkDiffieHellman rb.1 sb = Except.ok b) :
    ((∃ err, diffie_hellman a b = Except.error err) ↔ a.constants ≠ b.constants)
    ∧ (a.constants ≠ b.constants →
        diffie_hellman a b = Except.error (DHError.parameterMismatch a.constants b.constants))
    ∧ (a.constants = b.constants →
        diffie_hellman a b = Except.ok (calculate_shared a (calculate_public b)))
    ∧ (a.constants = b.constants ↔ (a.constants.g = b.constants.g ∧ a.constants.n = b.constants.n))
    ∧ diffie_hellman ⟨⟨5, 23⟩, 4⟩ ⟨⟨5, 23⟩, 3⟩ = Except.ok 18 := by
  obtain ⟨rfl, -, -⟩ := mkDiffieHellman_ok ha
  obtain ⟨rfl, -, -⟩ := mkDiffieHellman_ok hb
  refine ⟨⟨?_, ?_⟩, fun hne => exchange_mismatch hne, ?_, constants_ext_iff _ _, by decide⟩
  · rintro ⟨err, herr⟩ hceq
    have hceq2 : ra.1 = rb.1 := hceq
    rw [hceq2] at herr
    rw [exchange_ok] at herr
    exact absurd herr (by simp)
  · intro hne
    exact ⟨_, exchange_mismatch hne⟩
  · intro hceq
    have hceq2 : ra.1 = rb.1 := hceq
    rw [← hceq2]
    exact exchange_ok ra.1 sa sb

/-- Witness for C3 at the mismatched pair `(5, 23)` vs `(7, 23)` with
secrets 4 and 3. -/
theorem run_exchange_parameter_mismatch_checked :
    ((∃ err, diffie_hellman ⟨⟨5, 23⟩, 4⟩ ⟨⟨7, 23⟩, 3⟩ = Except.error err) ↔
      (⟨5, 23⟩ : DiffieHellmanConstants) ≠ ⟨7, 23⟩)
    ∧ ((⟨5, 23⟩ : DiffieHellmanConstants) ≠ ⟨7, 23⟩ →
        diffie_hellman ⟨⟨5, 23⟩, 4⟩ ⟨⟨7, 23⟩, 3⟩
          = Except.error (DHError.parameterMismatch ⟨5, 23⟩ ⟨7, 23⟩))
    ∧ ((⟨5, 23⟩ : DiffieHellmanConstants) = ⟨7, 23⟩ →
        diffie_hellman ⟨⟨5, 23⟩, 4⟩ ⟨⟨7, 23⟩, 3⟩
          = Except.ok (calculate_shared ⟨⟨5, 23⟩, 4⟩ (calculate_public ⟨⟨7, 23⟩, 3⟩)))
    ∧ ((⟨5, 23⟩ : DiffieHellmanConstants) = ⟨7, 23⟩ ↔ ((5 : Int) = 7 ∧ (23 : Int) = 23))
    ∧ diffie_hellman ⟨⟨5, 23⟩, 4⟩ ⟨⟨5, 23⟩, 3⟩ = Except.ok 18 :=
  run_exchange_parameter_mismatch 5 23 4 7 23 3 (⟨5, 23⟩, true) (⟨7, 23⟩, true)
    (by decide) (by decide) ⟨⟨5, 23⟩, 4⟩ ⟨⟨7, 23⟩, 3⟩ (by decide) (by decide)

/-- C4: parameter-set construction fails exactly when the primality check
or the primitive-root check fails, with the specified causes (zero, one,
composite with divisor and cofactor, colliding exponents), and a small
bit length never affects success: the result only records the advisory
flag. -/
theorem mkConstants_failure_spec (g n : Int) :
    ((∃ r, mkConstants g n = Except.ok r) ↔
      ((is_prime n).1 = true ∧ (is_primitive_root_modulo_n g n).1 = true))
    ∧ (n = 0 → mkConstants g n = Except.error DHError.modulusZero)
    ∧ (n = 1 → mkConstants g n = Except.error DHError.modulusOne)
    ∧ (∀ e, (is_prime n).2 = some e →
        mkConstants g n = Except.error (DHError.modulusComposite e.divisor (n / e.divisor)))
    ∧ ((is_prime n).1 = true → ∀ e, (is_primitive_root_modulo_n g n).2 = some e →
        mkConstants g n = Except.error (DHError.notPrimitiveRoot e.current e.remainder e.previous))
    ∧ (∀ r, mkConstants g n = Except.ok r →
        r = (⟨g, n⟩, decide (bit_length n < RECOMMENDED_N_BIT_LENGTH))) := by
  refine ⟨mkConstants_ok_iff g n, ?_, ?_, ?_, ?_, fun r hok => (mkConstants_ok_val hok).1⟩
  · rintro rfl
    rfl
  · rintro rfl
    rfl
  · intro e he
    obtain ⟨hf, h3⟩ := is_prime_snd_some he
    have h0 : ¬n = 0 := by omega
    have h1 : ¬n = 1 := by omega
    simp [mkConstants, hf, h0, h1, he]
  · intro hp e he
    have hf : (is_primitive_root_modulo_n g n).1 = false :=
      rootLoop_fst_false_of_some g n ((n - 1).toNat) 0 [] e he
    simp [mkConstants, hp, hf, he]

/-- Witness for C4: zero, one, composite and non-root failures plus the
`(5, 23)` success, all through the theorem. -/
theorem mkConstants_failure_spec_checked :
    mkConstants 2 0 = Except.error DHError.modulusZero
    ∧ mkConstants 2 1 = Except.error DHError.modulusOne
    ∧ mkConstants 2 10 = Except.error (DHError.modulusComposite 2 5)
    ∧ mkConstants 4 23 = Except.error (DHError.notPrimitiveRoot 11 1 0)
    ∧ (∃ r, mkConstants 5 23 = Except.ok r) :=
  ⟨(mkConstants_failure_spec 2 0).2.1 rfl,
   (mkConstants_failure_spec 2 1).2.2.1 rfl,
   (mkConstants_failure_spec 2 10).2.2.2.1 ⟨2⟩ (by decide),
   (mkConstants_failure_spec 4 23).2.2.2.2.1 (by decide) ⟨11, 1, 0⟩ (by decide),
   (mkConstants_failure_spec 5 23).1.mpr ⟨by decide, by decide⟩⟩

/-- C5: on 0..100 the primality verdict matches the reference prime list,
any returned witness divides the input, even inputs above 3 get witness 2,
multiples of 3 above 3 get witness 3, and the remaining inputs get the
first 6k±1 wheel divisor up to the square root (or none). -/
theorem is_prime_reference_spec :
    ∀ n : Nat, n < 101 →
      (((is_prime (n : Int)).1 = true ↔ n ∈ primesUpTo100)
      ∧ (∀ e, (is_prime (n : Int)).2 = some e → e.divisor ∣ (n : Int))
      ∧ (3 < n → n % 2 = 0 → (is_prime (n : Int)).2 = some ⟨2⟩)
      ∧ (3 < n → n % 2 ≠ 0 → n % 3 = 0 → (is_prime (n : Int)).2 = some ⟨3⟩)
      ∧ (3 < n → n % 2 ≠ 0 → n % 3 ≠ 0 →
          (is_prime (n : Int)).2 = (firstWheelDivisor n).map (fun d => ⟨(d : Int)⟩))) := by
  have hcoreA : ∀ n : Nat, n < 101 →
      (((is_prime (n : Int)).1 = true ↔ n ∈ primesUpTo100)
      ∧ (((is_prime (n : Int)).2.all fun e => decide (e.divisor ∣ (n : Int))) = true)) := by
    decide
  have hcoreB : ∀ n : Nat, n < 101 →
      (3 < n → n % 2 = 0 → (is_prime (n : Int)).2 = some ⟨2⟩) := by
    decide
  have hcoreC : ∀ n : Nat, n < 101 →
      (3 < n → n % 2 ≠ 0 → n % 3 = 0 → (is_prime (n : Int)).2 = some ⟨3⟩) := by
    decide
  have hcoreD : ∀ n : Nat, n < 101 →
      (3 < n → n % 2 ≠ 0 → n % 3 ≠ 0 →
          (is_prime (n : Int)).2 = (firstWheelDivisor n).map (fun d => ⟨(d : Int)⟩)) := by
    decide
  intro n hn
  obtain ⟨h1, h2⟩ := hcoreA n hn
  refine ⟨h1, ?_, hcoreB n hn, hcoreC n hn, hcoreD n hn⟩
  intro e he
  rw [he] at h2
  simpa using h2

/-- Witness for C5 at the composite 25, whose witness comes from the
wheel. -/
theorem is_prime_reference_spec_checked :
    ((is_prime ((25 : Nat) : Int)).1 = true ↔ (25 : Nat) ∈ primesUpTo100)
    ∧ (∀ e, (is_prime ((25 : Nat) : Int)).2 = some e → e.divisor ∣ ((25 : Nat) : Int))
    ∧ (3 < 25 → 25 % 2 = 0 → (is_prime ((25 : Nat) : Int)).2 = some ⟨2⟩)
    ∧ (3 < 25 → 25 % 2 ≠ 0 → 25 % 3 = 0 → (is_prime ((25 : Nat) : Int)).2 = some ⟨3⟩)
    ∧ (3 < 25 → 25 % 2 ≠ 0 → 25 % 3 ≠ 0 →
        (is_prime ((25 : Nat) : Int)).2 = (firstWheelDivisor 25).map (fun d => ⟨(d : Int)⟩)) :=
  is_prime_reference_spec 25 (by decide)

/-- C6: for `n >= 2` the checker accepts `g` exactly when the residues
`g ^ i % n` for `i` in `0 .. n - 2` are pairwise distinct, and it matches
the reference primitive-root table for the primes 5 through 31. -/
theorem primitive_root_iff_distinct_residues :
    (∀ g n : Int, 2 ≤ n →
      ((is_primitive_root_modulo_n g n).1 = true ↔
        ∀ j k : Nat, j < k → k < (n - 1).toNat → g ^ j % n ≠ g ^ k % n))
    ∧ rootTableMatches = true := by
  constructor
  · intro g n _
    have h := (rootLoop_spec g n ((n - 1).toNat) 0 (root_vacuous g n)).1
    rw [is_primitive_root_eq_rootLoop]
    simpa using h
  · decide

/-- Witness for C6 at `g = 5`, `n = 23`. -/
theorem primitive_root_iff_distinct_residues_checked :
    (is_primitive_root_modulo_n 5 23).1 = true ↔
      ∀ j k : Nat, j < k → k < ((23 : Int) - 1).toNat → (5 : Int) ^ j % 23 ≠ 5 ^ k % 23 :=
  primitive_root_iff_distinct_residues.1 5 23 (by decide)

/-- C7: any returned collision witness is valid: the previous exponent is
smaller, both exponents reproduce the recorded remainder, and the
previous exponent is the first one that produced that residue. -/
theorem primitive_root_witness_valid (g n : Int) (e : PrimitiveRootError)
    (h : (is_primitive_root_modulo_n g n).2 = some e) :
    e.previous < e.current
    ∧ e.remainder = g ^ e.current.toNat % n
    ∧ e.remainder = g ^ e.previous.toNat % n
    ∧ ∀ j : Nat, (j : Int) < e.previous → g ^ j % n ≠ e.remainder := by
  have h2 : (rootLoop g n ((n - 1).toNat) 0 (rootAcc g n 0)).2 = some e := by
    rw [← is_primitive_root_eq_rootLoop]
    exact h
  obtain ⟨cur, prev, he, h1, -, -, h4, h5⟩ :=
    (rootLoop_spec g n ((n - 1).toNat) 0 (root_vacuous g n)).2 e h2
  subst he
  refine ⟨?_, by simp, ?_, ?_⟩
  · show ((prev : Nat) : Int) < ((cur : Nat) : Int)
    exact_mod_cast h1
  · simpa using h4.symm
  · intro j hj hcontra
    have hj2 : (j : Int) < ((prev : Nat) : Int) := hj
    have hjp : j < prev := by exact_mod_cast hj2
    exact h5 j (by omega) (by omega) hcontra

/-- Witness for C7 at `g = 4`, `n = 23`, whose collision is
`4 ^ 11 % 23 = 4 ^ 0 % 23 = 1`. -/
theorem primitive_root_witness_valid_checked :
    ((0 : Int) < 11)
    ∧ ((1 : Int) = 4 ^ (11 : Int).toNat % 23)
    ∧ ((1 : Int) = 4 ^ (0 : Int).toNat % 23)
    ∧ (∀ j : Nat, (j : Int) < 0 → (4 : Int) ^ j % 23 ≠ 1) :=
  primitive_root_witness_valid 4 23 ⟨11, 1, 0⟩ (by decide)

/-- C8: for a successfully constructed parameter set with modulus `n`,
building a participant succeeds iff `1 <= secret <= n` (so `secret = n`
is accepted), failing below with the too-small error and above with the
too-large error. -/
theorem participant_secret_range (g n : Int) (r : DiffieHellmanConstants × Bool)
    (hc : mkConstants g n = Except.ok r) (secret : Int) :
    ((∃ p, mkDiffieHellman r.1 secret = Except.ok p) ↔ (1 ≤ secret ∧ secret ≤ n))
    ∧ (secret < 1 →
        mkDiffieHellman r.1 secret = Except.error (DHError.secretTooSmall secret))
    ∧ (n < secret →
        mkDiffieHellman r.1 secret = Except.error (DHError.secretTooLarge secret n))
    ∧ mkDiffieHellman r.1 n = Except.ok ⟨r.1, n⟩ := by
  obtain ⟨hr, hp, -⟩ := mkConstants_ok_val hc
  subst hr
  have hn : (1 : Int) < n := is_prime_true_gt_one hp
  refine ⟨mkDiffieHellman_ok_iff ⟨g, n⟩ secret, ?_, ?_, ?_⟩
  · intro h
    simp [mkDiffieHellman, h]
  · intro h
    have h1 : ¬secret < 1 := by omega
    simp [mkDiffieHellman, h1, h]
  · have h1 : ¬n < 1 := by omega
    have h2 : ¬n > n := by omega
    simp [mkDiffieHellman, h1, h2]

/-- Witness for C8 over `(g, n) = (5, 23)` with the secrets of the
documented tests. -/
theorem participant_secret_range_checked :
    ((∃ p, mkDiffieHellman ⟨5, 23⟩ 4 = Except.ok p) ↔ ((1 : Int) ≤ 4 ∧ (4 : Int) ≤ 23))
    ∧ mkDiffieHellman ⟨5, 23⟩ (-3) = Except.error (DHError.secretTooSmall (-3))
    ∧ mkDiffieHellman ⟨5, 23⟩ 100 = Except.error (DHError.secretTooLarge 100 23)
    ∧ mkDiffieHellman ⟨5, 23⟩ 23 = Except.ok ⟨⟨5, 23⟩, 23⟩ :=
  have h := participant_secret_range 5 23 (⟨5, 23⟩, true) (by decide)
  ⟨(h 4).1, (h (-3)).2.1 (by decide), (h 100).2.2.1 (by decide), (h 23).2.2.2⟩

/-- C9: for every integer `n <= 3`, negatives included, `is_prime`
answers `n > 1` with no witness divisor. -/
theorem is_prime_small_boundary (n : Int) (h : n ≤ 3) :
    is_prime n = (decide (1 < n), none) := by
  simp [is_prime, h]

/-- Witness for C9 at a negative input and at 2. -/
theorem is_prime_small_boundary_checked :
    is_prime (-7) = (decide ((1 : Int) < -7), none)
    ∧ is_prime 2 = (decide ((1 : Int) < 2), none) :=
  ⟨is_prime_small_boundary (-7) (by decide), is_prime_small_boundary 2 (by decide)⟩

/-- C10: the residue scan is vacuous for `n = 2` and `n <= 1`, so every
`g` passes it there, and `mkConstants g 2` succeeds for every `g`
(including 0 and 1), with the advisory flag set. -/
theorem root_check_trivial_small_modulus :
    (∀ g : Int, is_primitive_root_modulo_n g 2 = (true, none))
    ∧ (∀ g n : Int, n ≤ 1 → is_primitive_root_modulo_n g n = (true, none))
    ∧ (∀ g : Int, mkConstants g 2 = Except.ok (⟨g, 2⟩, true)) := by
  refine ⟨fun g => rfl, fun g n h => ?_, fun g => rfl⟩
  have h0 : (n - 1).toNat = 0 := by omega
  simp [is_primitive_root_modulo_n, h0, rootLoop]

/-- Witness for C10 at `g = 7, n = 0` and the degenerate generators 0
and 1 for `n = 2`. -/
theorem root_check_trivial_small_modulus_checked :
    is_primitive_root_modulo_n 7 0 = (true, none)
    ∧ is_primitive_root_modulo_n 0 2 = (true, none)
    ∧ mkConstants 0 2 = Except.ok (⟨0, 2⟩, true)
    ∧ mkConstants 1 2 = Except.ok (⟨1, 2⟩, true) :=
  ⟨root_check_trivial_small_modulus.2.1 7 0 (by decide),
   root_check_trivial_small_modulus.1 0,
   root_check_trivial_small_modulus.2.2 0,
   root_check_trivial_small_modulus.2.2 1⟩

end DiffieHellmanSpec
